import Mathlib

/-!
Verification development for the bill-tracking data layer
(src/data_loader.py, src/data_manager.py, src/file_watcher.py).

Cells of the tabular files are modelled as `Option String`: `none` is a
missing value (pandas NaN), `some s` a raw string cell.  DataFrames are
modelled at the level the claims need: a list of rows, each row an
association list from column name to cell, together with an explicit
ordered column list where column membership matters.
-/

/-! ### Low-level cell parsing (src/data_loader.py) -/

/-- The apostrophe character, used as the separator inside month labels. -/
def aposChar : Char := Char.ofNat 39

/-- Python str.strip: drop the whitespace on both ends.  (Defined on the
character list so that every definition below evaluates inside the kernel.) -/
def str_strip (s : String) : String :=
  String.mk (((s.data.dropWhile Char.isWhitespace).reverse.dropWhile
    Char.isWhitespace).reverse)

/-- Python str.lower on the ASCII data of these files. -/
def str_lower (s : String) : String := String.mk (s.data.map Char.toLower)

/-- Python str.upper on the ASCII data of these files. -/
def str_upper (s : String) : String := String.mk (s.data.map Char.toUpper)

/-- Python str.split on a one-character separator. -/
def split_char (sep : Char) : List Char → List (List Char)
  | [] => [[]]
  | c :: cs =>
    if c = sep then [] :: split_char sep cs
    else
      match split_char sep cs with
      | [] => [[c]]
      | h :: t => (c :: h) :: t

/-- Python str.split on the apostrophe. -/
def str_split_apos (s : String) : List String := (split_char aposChar s.data).map String.mk

/-- Python string comparison: lexicographic on code points. -/
def char_list_le : List Char → List Char → Bool
  | [], _ => true
  | _ :: _, [] => false
  | a :: as, b :: bs =>
    if a.toNat < b.toNat then true
    else if b.toNat < a.toNat then false
    else char_list_le as bs

/-- Python string less-or-equal. -/
def str_le (a b : String) : Bool := char_list_le a.data b.data

/-- Stable insertion of an element behind every already placed element that
compares less-or-equal to it. -/
def insert_by (le : α → α → Bool) (a : α) : List α → List α
  | [] => [a]
  | b :: bs => if le b a then b :: insert_by le a bs else a :: b :: bs

/-- Stable sort (python list.sort is stable, so any stable sorting algorithm
computes the same list). -/
def sort_by (le : α → α → Bool) (l : List α) : List α :=
  l.foldl (fun acc a => insert_by le a acc) []

/-- Keep only the decimal digits of a string
(the re.sub removing every non-digit in parse_nominal / is_paid). -/
def digitsOnly (s : String) : String := String.mk (s.data.filter Char.isDigit)

/-- Numeric value of a digit string (python int on a nonempty digit string). -/
def digitsVal (s : String) : Nat := s.data.foldl (fun n c => 10 * n + (c.toNat - 48)) 0

/-- parse_nominal: strip every non-digit character and read the rest as an
integer; missing, empty or digit-free values parse to 0. -/
def parse_nominal : Option String → Nat
  | none => 0
  | some s =>
    let cleaned := digitsOnly s
    if cleaned == "" then 0 else digitsVal cleaned

/-- is_paid: a missing, empty, whitespace-only or dash cell is unpaid; a cell
whose digits read 0 is unpaid; any other digit cell is paid; a digit-free
non-blank cell (free text such as Lunas) counts as paid. -/
def is_paid : Option String → Bool
  | none => false
  | some s =>
    if s = "" then false
    else
      let val_str := str_strip s
      if val_str = "" || val_str = "-" then false
      else
        let digits := digitsOnly val_str
        if digits == "" then true
        else decide (digitsVal digits ≠ 0)

/-- normalize_name: lowercase and strip surrounding whitespace. -/
def normalize_name (s : String) : String := str_lower (str_strip s)

/-- get_month_columns: the columns after the first Nominal column whose name
contains an apostrophe. -/
def get_month_columns (cols : List String) : List String :=
  match cols.indexOf? "Nominal" with
  | none => []
  | some i => (cols.drop (i + 1)).filter (fun c => c.data.contains aposChar)

/-! ### The master/billing tables and the merge (_load_data) -/

/-- One row of the master roster (load_master_data strips the ID). -/
structure MasterRow where
  id : String
  nama : String
  deriving Repr, DecidableEq

/-- One row of a parsed billing table; cells maps column names to raw cells.
A column absent from the association list is a missing (NaN) cell. -/
structure BillingRow where
  id : String
  cells : List (String × Option String)
  deriving Repr, DecidableEq

/-- One row of the merged dataset. village is the Source_Village tag of the
billing row the data came from, none when the roster id had no billing match
(in which case monthVals is empty: all billing cells are NaN). -/
structure Record where
  id : String
  nama : String
  monthVals : List (String × Option String)
  village : Option String
  deriving Repr, DecidableEq

/-- The concatenated billing frame: every billing row of every village file,
its ID stripped and tagged with its Source_Village. -/
def combined_billing (billing : List (String × List BillingRow)) :
    List (String × BillingRow) :=
  billing.flatMap (fun vb => vb.2.map (fun r => (vb.1, { r with id := str_strip r.id })))

/-- pd.merge on ID with how left: every master row paired with every combined
billing row carrying the same id; a master row with no match yields a single
record with all billing cells missing. -/
def merge_left (master : List MasterRow) (comb : List (String × BillingRow)) :
    List Record :=
  master.flatMap (fun m =>
    let ms := comb.filter (fun vb => vb.2.id == m.id)
    if ms.isEmpty then [⟨m.id, m.nama, [], none⟩]
    else ms.map (fun vb => ⟨m.id, m.nama, vb.2.cells, some vb.1⟩))

/-- The merged dataset built by _load_data from a parsed master table and the
parsed billing tables: when no billing row exists at all the master frame
itself is the dataset, otherwise the left join. -/
def load_data (master : List MasterRow) (billing : List (String × List BillingRow)) :
    List Record :=
  let comb := combined_billing billing
  if comb.isEmpty then master.map (fun m => ⟨m.id, m.nama, [], none⟩)
  else merge_left master comb

/-! ### The store snapshot and reload (_load_data as a state transformer)

A parsed master table / billing table carries its column list, so that the
month-label sequence of the snapshot can be derived as the code derives it
from the columns of the merged frame. -/

/-- A parsed master table: column list plus rows. -/
structure MasterTable where
  cols : List String
  rows : List MasterRow
  deriving Repr, DecidableEq

/-- A parsed billing table: column list plus rows. -/
structure BTable where
  cols : List String
  rows : List BillingRow
  deriving Repr, DecidableEq

/-- The store snapshot: the merged dataset, the merged frame columns and the
derived month-label sequence. -/
structure StoreState where
  records : List Record
  cols : List String
  month_columns : List String
  deriving Repr, DecidableEq

/-- load_billing_data: a missing directory yields no tables; a file whose
parse fails (load_csv returns None) is skipped; every other file contributes
its parsed table, in directory order. -/
def load_billing_data (dir : Option (List (String × Option BTable))) :
    List (String × BTable) :=
  match dir with
  | none => []
  | some files =>
    files.foldl (fun acc f =>
      match f.2 with
      | some t => acc ++ [(f.1, t)]
      | none => acc) []

/-- Column union of concatenated frames, in order of first appearance
(pd.concat with ignore_index over the tagged billing frames). -/
def concat_cols (ls : List (List String)) : List String :=
  ls.foldl (fun acc cs => acc ++ cs.filter (fun c => !(acc.contains c))) []

/-- Columns of the combined billing frame: each billing table's columns plus
its Source_Village tag, unioned in order. -/
def combined_cols (billing : List (String × BTable)) : List String :=
  concat_cols (billing.map (fun vb => vb.2.cols ++ ["Source_Village"]))

/-- Columns of the left-join of the master frame with the combined billing
frame: master columns first, then the billing columns other than the join
key, a name colliding with a master column getting the billing suffix. -/
def merge_cols (mcols ccols : List String) : List String :=
  mcols ++ (ccols.filter (fun c => c != "ID")).map
    (fun c => if mcols.contains c then c ++ "_billing" else c)

/-- The column drop of the duplicated name column after the merge. -/
def drop_nama_billing (cols : List String) : List String :=
  cols.filter (fun c => c != "Nama_billing")

/-- _load_data as a state transformer: a master parse failure returns false
and leaves the snapshot untouched; otherwise the snapshot is rebuilt from the
freshly parsed tables (skipped billing files simply contribute nothing) and
the call returns true. -/
def reload (st : StoreState) (masterFile : Option MasterTable)
    (billingDir : Option (List (String × Option BTable))) : StoreState × Bool :=
  match masterFile with
  | none => (st, false)
  | some mt =>
    let bts := load_billing_data billingDir
    let comb := combined_billing (bts.map (fun vb => (vb.1, vb.2.rows)))
    if comb.isEmpty then
      ({ records := mt.rows.map (fun m => ⟨m.id, m.nama, [], none⟩),
         cols := mt.cols, month_columns := [] }, true)
    else
      let cols := drop_nama_billing (merge_cols mt.cols (combined_cols bts))
      ({ records := merge_left mt.rows comb,
         cols := cols, month_columns := get_month_columns cols }, true)

/-! ### Queries over the snapshot (data_manager.py) -/

/-- The cell of a merged record in a given column: a column the record's
billing row does not carry is a missing (NaN) cell. -/
def cell (r : Record) (c : String) : Option String :=
  match r.monthVals.lookup c with
  | some v => v
  | none => none

/-- String image of a cell under astype(str): NaN prints as nan. -/
def cellStr : Option String → String
  | none => "nan"
  | some s => s

/-- The unpaid mask of _get_unpaid_by_month_sync: the cell is missing or its
stripped string form is empty. -/
def unpaid_mask (v : Option String) : Bool :=
  match v with
  | none => true
  | some s => str_strip s == ""

/-- _get_unpaid_by_month_sync: empty when the normalized label is not a column
of the frame, otherwise the records whose cell for that label is missing or
blank, sorted by name.  (The ID notna mask of the code is vacuous here: merged
ids are strings from the master roster.) -/
def get_unpaid_by_month (st : StoreState) (month : String) : List Record :=
  let m := str_strip (str_upper month)
  if !(st.cols.contains m) then []
  else
    sort_by (fun a b => str_le a.nama b.nama)
      (st.records.filter (fun r => unpaid_mask (cell r m)))

/-- _get_paid_by_month_sync: empty when the normalized label is not a column
of the frame, otherwise the records whose cell passes is_paid, sorted by
name. -/
def get_paid_by_month (st : StoreState) (month : String) : List Record :=
  let m := str_strip (str_upper month)
  if !(st.cols.contains m) then []
  else
    sort_by (fun a b => str_le a.nama b.nama)
      (st.records.filter (fun r => is_paid (cell r m)))

/-! ### Month resolution (_resolve_month_sync) -/

/-- The informal month-name table of _resolve_month_sync. -/
def month_map : List (String × String) :=
  [("jan", "JAN"), ("januari", "JAN"), ("feb", "FEB"), ("februari", "FEB"),
   ("mar", "MAR"), ("maret", "MAR"), ("apr", "APR"), ("april", "APR"),
   ("mei", "MEI"), ("may", "MEI"), ("jun", "JUN"), ("juni", "JUN"),
   ("jul", "JUL"), ("juli", "JUL"), ("agu", "AGU"), ("aug", "AUG"),
   ("agustus", "AGU"), ("sep", "SEP"), ("september", "SEP"),
   ("okt", "OKT"), ("oct", "OKT"), ("oktober", "OKT"),
   ("nov", "NOV"), ("november", "NOV"), ("des", "DES"), ("dec", "DES"),
   ("desember", "DES")]

/-- The spelling variants tried for a canonical code. -/
def variationsOf (t : String) : List String :=
  [t] ++ (if t == "AGU" then ["AUG"] else []) ++ (if t == "AUG" then ["AGU"] else [])
      ++ (if t == "MEI" then ["MAY"] else []) ++ (if t == "MAY" then ["MEI"] else [])

/-- The month code of a label: the part before the first apostrophe,
uppercased. -/
def month_code (c : String) : String := str_upper ((str_split_apos c).headD "")

/-- The year suffix sort key of a label: the part after the first apostrophe,
00 when the label has no apostrophe. -/
def year_suffix (c : String) : String := (str_split_apos c).getD 1 "00"

/-- _resolve_month_sync, with the current two-digit calendar year as an
explicit argument: (1) exact case-insensitive label match; (2) informal-name
lookup to a canonical code; (3) current-year candidate for each spelling
variant; (4) else the last label, in a stable sort by year suffix, among the
labels whose code matches a variant; (5) none when nothing matches. -/
def resolve_month (available : List String) (current_yr : String)
    (input_name : String) : Option String :=
  let input_lower := str_lower (str_strip input_name)
  if available.isEmpty then none
  else
    match available.find? (fun col => str_lower col == input_lower) with
    | some col => some col
    | none =>
      match month_map.lookup input_lower with
      | none => none
      | some target_abbr =>
        let variations := variationsOf target_abbr
        match variations.findSome? (fun v =>
            available.find? (fun col => str_upper col == v ++ "'" ++ current_yr)) with
        | some col => some col
        | none =>
          match (sort_by (fun a b => str_le (year_suffix a) (year_suffix b))
              (available.filter (fun c => variations.contains (month_code c)))).getLast? with
          | some c => some c
          | none => none

/-! ### Name search (_search_by_name_sync) -/

/-- Python substring membership term in s. -/
def str_contains (s term : String) : Bool := decide (term.data <:+: s.data)

/-- _search_by_name_sync, the approximate matcher difflib.get_close_matches
(an external collaborator, called with n 5 and cutoff 0.4) passed as an
argument: empty frame or empty normalized term yields no result; otherwise
the case-insensitive substring matches; when there are none, the records
whose lowercased name is among the candidate names the matcher picked from
the normalized name list. -/
def search_by_name (records : List Record)
    (close_matches : String → List String → List String) (name : String) :
    List Record :=
  if records.isEmpty then []
  else
    let term := normalize_name name
    if term == "" then []
    else
      let res := records.filter (fun r => str_contains (str_lower r.nama) term)
      if res.length == 0 then
        let names := records.map (fun r => normalize_name r.nama)
        let close := close_matches term names
        if !close.isEmpty then
          records.filter (fun r => close.contains (str_lower r.nama))
        else res
      else res

/-! ### The payment update (_update_payment_sync)

The operation is modelled as a pure function over an explicit filesystem: an
association list from village file name to its on-disk state, a file being
either unparsable (load_csv returns None) or a parsed file.  The two
injectable fault points of the atomic-replace protocol are explicit booleans:
stage_fails is an exception while creating or writing the temporary file
(before the watcher is paused), rename_fails an exception in os.replace
(after the watcher is paused).  In every exception case the code deletes the
temporary file and returns False without touching the original file, which
the model reflects by leaving the filesystem unchanged. -/

/-- A parsed billing file on disk: the verbatim preamble lines up to and
including the header row, the column list, and the data rows (each an
association list from column to cell). -/
structure VFile where
  titleRows : List String
  cols : List String
  rows : List (List (String × Option String))
  deriving Repr, DecidableEq

/-- The on-disk state of a billing path. -/
inductive DiskFile where
  | bad : DiskFile
  | good : VFile → DiskFile
  deriving Repr, DecidableEq

/-- The slice of a merged record the update needs: its id and its already
resolved Source_Village (falling back to the Desa field). -/
structure UpdRow where
  id : String
  village : String
  deriving Repr, DecidableEq

/-- Result of one _update_payment_sync call: the returned boolean, the
filesystem afterwards, the watcher paused flag afterwards, and whether the
post-write reload ran. -/
structure UpdResult where
  ok : Bool
  fs : List (String × DiskFile)
  watcherPaused : Bool
  reloaded : Bool
  deriving Repr, DecidableEq

/-- The cell of a file row in a column (a column the row does not carry is a
missing cell). -/
def rowCell (row : List (String × Option String)) (c : String) : Option String :=
  match row.lookup c with
  | some v => v
  | none => none

/-- Writing one cell of a row: replace the entry when the column is present,
append it otherwise (pandas at-indexer enlargement). -/
def setCell (row : List (String × Option String)) (c : String) (v : String) :
    List (String × Option String) :=
  if (row.lookup c).isSome then
    row.map (fun p => if p.1 == c then (p.1, some v) else p)
  else row ++ [(c, some v)]

/-- Index of the first row of the file whose stripped string ID equals the
target id. -/
def idxOfRow (vf : VFile) (id_str : String) : Option Nat :=
  vf.rows.findIdx? (fun row => str_strip (cellStr (rowCell row "ID")) == id_str)

/-- os.replace of the freshly staged file over the village path. -/
def replaceFile (fs : List (String × DiskFile)) (village : String) (nf : VFile) :
    List (String × DiskFile) :=
  fs.map (fun p => if p.1 == village then (p.1, DiskFile.good nf) else p)

/-- _update_payment_sync.  Failure paths, in code order: id not in the merged
frame; village file missing; load_csv failure; id not in the file (or no ID
column, a KeyError); a KeyError reading a missing month column in increment
mode; an exception while staging the temporary file; an exception in
os.replace (the watcher stays paused, claim C10).  On success the staged file
keeps the original preamble verbatim, the store reloads, and the watcher is
resumed. -/
def update_payment_sync (df : List UpdRow) (fs : List (String × DiskFile))
    (watcherPaused : Bool) (id_warga month_col value : String)
    (is_increment : Bool) (stage_fails rename_fails : Bool) : UpdResult :=
  let id_str := str_strip id_warga
  match df.find? (fun r => str_strip r.id == id_str) with
  | none => ⟨false, fs, watcherPaused, false⟩
  | some resident =>
    let village := str_strip (str_lower resident.village)
    match fs.lookup village with
    | none => ⟨false, fs, watcherPaused, false⟩
    | some DiskFile.bad => ⟨false, fs, watcherPaused, false⟩
    | some (DiskFile.good vf) =>
      if !(vf.cols.contains "ID") then ⟨false, fs, watcherPaused, false⟩
      else
        match idxOfRow vf id_str with
        | none => ⟨false, fs, watcherPaused, false⟩
        | some idx =>
          if is_increment && !(vf.cols.contains month_col) then
            ⟨false, fs, watcherPaused, false⟩
          else
            let oldRow := vf.rows.getD idx []
            let newVal :=
              if is_increment then
                toString (parse_nominal (rowCell oldRow month_col) +
                  parse_nominal (some value))
              else toString (parse_nominal (some value))
            let newCols := if vf.cols.contains month_col then vf.cols
              else vf.cols ++ [month_col]
            let nf : VFile :=
              ⟨vf.titleRows, newCols, vf.rows.set idx (setCell oldRow month_col newVal)⟩
            if stage_fails then ⟨false, fs, watcherPaused, false⟩
            else if rename_fails then ⟨false, fs, true, false⟩
            else ⟨true, replaceFile fs village nf, false, true⟩

/-! ### The debounced watcher (src/file_watcher.py)

The handler is modelled as a transition system whose atomic steps are exactly
the lock-held critical sections of the code.  Event delivery is two separate
critical sections: on_modified checks the paused flag and releases the lock,
then _schedule_reload reacquires it to cancel and restart the timer.  The
handler program counter is 0 before the paused check, 1 between the check and
the schedule, 2 afterwards. -/

/-- Watcher state: the paused flag, whether an uncancelled debounce timer is
pending, the event-delivery thread position, the number of callback
invocations so far, and whether some invocation happened while paused. -/
structure WState where
  paused : Bool
  timerPending : Bool
  handlerPC : Nat
  fires : Nat
  firedWhilePaused : Bool
  deriving Repr, DecidableEq

/-- The atomic steps: the paused check of on_modified, the cancel-and-restart
of _schedule_reload, pause (sets the flag and cancels any timer), resume, and
the timer firing (which invokes the reload callback). -/
inductive WAct where
  | evCheck : WAct
  | evSchedule : WAct
  | pause : WAct
  | resume : WAct
  | timerFire : WAct
  deriving Repr, DecidableEq

/-- One atomic step of the handler. -/
def wstep (s : WState) : WAct → WState
  | WAct.evCheck =>
    if s.handlerPC == 0 then
      if s.paused then { s with handlerPC := 2 } else { s with handlerPC := 1 }
    else s
  | WAct.evSchedule =>
    if s.handlerPC == 1 then
      { s with
        timerPending := true
        handlerPC := 2 }
    else s
  | WAct.pause => { s with paused := true, timerPending := false }
  | WAct.resume => { s with paused := false }
  | WAct.timerFire =>
    if s.timerPending then
      { s with
        timerPending := false
        fires := s.fires + 1
        firedWhilePaused := s.firedWhilePaused || s.paused }
    else s

/-- Run a sequence of atomic steps. -/
def wrun (s : WState) (acts : List WAct) : WState := acts.foldl wstep s

/-! ### Spec-side definitions (for comparison only, not from the code) -/

/-- Modelled from the spec: the Payment Status classification calls a month
cell unpaid when it is empty, zero, or a dash. -/
def spec_unpaid_cell (v : Option String) : Bool :=
  match v with
  | none => true
  | some s =>
    str_strip s == "" || str_strip s == "-" ||
      (!(digitsOnly s == "") && digitsVal (digitsOnly s) == 0)

/-- Reading one cell back from the filesystem, as a fresh load_csv of the
village file followed by the row and column access would see it. -/
def storedCell (fs : List (String × DiskFile)) (village : String) (idx : Nat)
    (c : String) : Option String :=
  match fs.lookup village with
  | some (DiskFile.good vf) => rowCell (vf.rows.getD idx []) c
  | _ => none

/-! ### Helper lemmas about the merge -/

theorem merge_left_count (comb : List (String × BillingRow)) (X : String)
    (master : List MasterRow) :
    ((merge_left master comb).filter (fun r => r.id == X)).length =
      (master.filter (fun m => m.id == X)).length *
        max 1 ((comb.filter (fun vb => vb.2.id == X)).length) := by
  induction master with
  | nil => simp [merge_left]
  | cons m t ih =>
    simp only [merge_left] at ih ⊢
    rw [List.flatMap_cons, List.filter_append, List.length_append, ih,
      List.filter_cons]
    by_cases he : (comb.filter (fun vb => vb.2.id == m.id)).isEmpty = true
    · have hnil : comb.filter (fun vb => vb.2.id == m.id) = [] :=
        List.isEmpty_iff.mp he
      rw [if_pos he]
      by_cases hmx : m.id = X
      · subst hmx
        rw [hnil]
        simp [Nat.succ_mul]
        exact Nat.add_comm _ _
      · have hb : (m.id == X) = false := by simp [hmx]
        simp [hb, hmx]
    · rw [if_neg he, List.filter_map]
      by_cases hmx : m.id = X
      · subst hmx
        have hne : comb.filter (fun vb => vb.2.id == m.id) ≠ [] := by
          intro hc; rw [hc] at he; simp at he
        have hpos : 1 ≤ (comb.filter (fun vb => vb.2.id == m.id)).length :=
          Nat.one_le_iff_ne_zero.mpr (by
            intro hz; exact hne (List.length_eq_zero.mp hz))
        have hcomp : ((fun r : Record => r.id == m.id) ∘
            (fun vb : String × BillingRow =>
              (⟨m.id, m.nama, vb.2.cells, some vb.1⟩ : Record))) =
            (fun _ => true) := by
          funext vb; simp
        rw [hcomp, List.filter_true, List.length_map, beq_self_eq_true,
          if_pos rfl, List.length_cons, Nat.max_eq_right hpos, Nat.succ_mul]
        exact Nat.add_comm _ _
      · have hb : (m.id == X) = false := by simp [hmx]
        have hcomp : ((fun r : Record => r.id == X) ∘
            (fun vb : String × BillingRow =>
              (⟨m.id, m.nama, vb.2.cells, some vb.1⟩ : Record))) =
            (fun _ => false) := by
          funext vb; simp [hmx]
        rw [hcomp, List.filter_false]
        simp [hb]

theorem load_data_count (master : List MasterRow)
    (billing : List (String × List BillingRow)) (X : String) :
    ((load_data master billing).filter (fun r => r.id == X)).length =
      (master.filter (fun m => m.id == X)).length *
        max 1 (((combined_billing billing).filter (fun vb => vb.2.id == X)).length) := by
  unfold load_data
  by_cases he : (combined_billing billing).isEmpty = true
  · have hnil : combined_billing billing = [] := List.isEmpty_iff.mp he
    rw [if_pos he, hnil, List.filter_map]
    have hcomp : ((fun r : Record => r.id == X) ∘
        (fun m : MasterRow => (⟨m.id, m.nama, [], none⟩ : Record))) =
        (fun m : MasterRow => m.id == X) := rfl
    rw [hcomp, List.length_map]
    simp
  · rw [if_neg he]
    exact merge_left_count _ _ _

theorem merge_left_no_match (comb : List (String × BillingRow)) (X : String)
    (hK : comb.filter (fun vb => vb.2.id == X) = []) (master : List MasterRow) :
    (merge_left master comb).filter (fun r => r.id == X) =
      (master.filter (fun m => m.id == X)).map
        (fun m => (⟨m.id, m.nama, [], none⟩ : Record)) := by
  induction master with
  | nil => simp [merge_left]
  | cons m t ih =>
    simp only [merge_left] at ih ⊢
    rw [List.flatMap_cons, List.filter_append, ih, List.filter_cons]
    by_cases hmx : m.id = X
    · subst hmx
      rw [hK]
      simp
    · have hb : (m.id == X) = false := by simp [hmx]
      rw [hb]
      by_cases he : (comb.filter (fun vb => vb.2.id == m.id)).isEmpty = true
      · rw [if_pos he]
        simp [hmx]
      · rw [if_neg he, List.filter_map]
        have hcomp : ((fun r : Record => r.id == X) ∘
            (fun vb : String × BillingRow =>
              (⟨m.id, m.nama, vb.2.cells, some vb.1⟩ : Record))) =
            (fun _ => false) := by
          funext vb; simp [hmx]
        rw [hcomp, List.filter_false]
        simp

theorem load_data_no_match (master : List MasterRow)
    (billing : List (String × List BillingRow)) (X : String)
    (hK : (combined_billing billing).filter (fun vb => vb.2.id == X) = []) :
    (load_data master billing).filter (fun r => r.id == X) =
      (master.filter (fun m => m.id == X)).map
        (fun m => (⟨m.id, m.nama, [], none⟩ : Record)) := by
  unfold load_data
  by_cases he : (combined_billing billing).isEmpty = true
  · rw [if_pos he, List.filter_map]
    rfl
  · rw [if_neg he]
    exact merge_left_no_match _ _ hK _

/-- Claim C1: for an id X that occurs exactly once in the master roster and in
at most one combined billing row, the merged dataset of a successful load has
exactly one record with id X; an id absent from the roster yields no merged
record no matter what the billing files hold; and when no billing row matches
X, the unique record for X carries empty per-month values (all billing cells
missing) rather than being dropped. -/
theorem C1_unique_roster_id (master : List MasterRow)
    (billing : List (String × List BillingRow)) (X : String)
    (h1 : (master.filter (fun m => m.id == X)).length = 1)
    (h2 : ((combined_billing billing).filter (fun vb => vb.2.id == X)).length ≤ 1) :
    ((load_data master billing).filter (fun r => r.id == X)).length = 1 ∧
    (∀ Y, (∀ m ∈ master, ¬(m.id = Y)) →
      (load_data master billing).filter (fun r => r.id == Y) = []) ∧
    ((combined_billing billing).filter (fun vb => vb.2.id == X) = [] →
      ∃ rec : Record, (load_data master billing).filter (fun r => r.id == X) = [rec] ∧
        rec.monthVals = [] ∧ rec.village = none) := by
  refine ⟨?_, ?_, ?_⟩
  · rw [load_data_count, h1, Nat.max_eq_left h2, Nat.one_mul]
  · intro Y hy
    have hz : (master.filter (fun m => m.id == Y)).length = 0 := by
      rw [List.length_eq_zero, List.filter_eq_nil_iff]
      intro m hm
      simp [hy m hm]
    apply List.length_eq_zero.mp
    rw [load_data_count, hz, Nat.zero_mul]
  · intro hK
    rw [load_data_no_match master billing X hK]
    obtain ⟨m, hm⟩ := List.length_eq_one.mp h1
    rw [hm]
    exact ⟨⟨m.id, m.nama, [], none⟩, rfl, rfl, rfl⟩

/-- Witness for C1 at a concrete roster and billing directory. -/
theorem C1_unique_roster_id_witness :
    ((load_data [⟨"7", "Ali"⟩, ⟨"8", "Budi"⟩]
        [("desa", [⟨"7", [("JAN'26", some "10000")]⟩])]).filter
      (fun r => r.id == "7")).length = 1 :=
  (C1_unique_roster_id [⟨"7", "Ali"⟩, ⟨"8", "Budi"⟩]
    [("desa", [⟨"7", [("JAN'26", some "10000")]⟩])] "7"
    (by decide) (by decide)).1

/-- Counterexample to C1 as stated: id 7 occurs once in the master roster but
in two billing files, and the left join then yields two merged records with
id 7 after a successful reload, not exactly one. -/
theorem C1_counterexample :
    (reload ⟨[], [], []⟩
        (some ⟨["ID", "Nama"], [⟨"7", "Ali"⟩]⟩)
        (some [("a", some ⟨["ID", "Nama", "Nominal", "JAN'26"],
                  [⟨"7", [("JAN'26", some "10")]⟩]⟩),
               ("b", some ⟨["ID", "Nama", "Nominal", "JAN'26"],
                  [⟨"7", [("JAN'26", some "20")]⟩]⟩)])).2 = true ∧
    ((reload ⟨[], [], []⟩
        (some ⟨["ID", "Nama"], [⟨"7", "Ali"⟩]⟩)
        (some [("a", some ⟨["ID", "Nama", "Nominal", "JAN'26"],
                  [⟨"7", [("JAN'26", some "10")]⟩]⟩),
               ("b", some ⟨["ID", "Nama", "Nominal", "JAN'26"],
                  [⟨"7", [("JAN'26", some "20")]⟩]⟩)])).1.records.filter
      (fun r => r.id == "7")).length = 2 := by
  exact ⟨rfl, rfl⟩

/-! ### Helper lemmas about the stable sort and the string order -/

theorem char_list_le_total : ∀ as bs : List Char,
    char_list_le as bs = true ∨ char_list_le bs as = true := by
  intro as
  induction as with
  | nil => intro bs; left; simp [char_list_le]
  | cons a as ih =>
    intro bs
    cases bs with
    | nil => right; simp [char_list_le]
    | cons b bs =>
      by_cases h1 : a.toNat < b.toNat
      · left; simp [char_list_le, h1]
      · by_cases h2 : b.toNat < a.toNat
        · right; simp [char_list_le, h2]
        · rcases ih bs with h | h
          · left; simp [char_list_le, h1, h2, h]
          · right; simp [char_list_le, h1, h2, h]

theorem char_list_le_trans : ∀ as bs cs : List Char,
    char_list_le as bs = true → char_list_le bs cs = true →
    char_list_le as cs = true := by
  intro as
  induction as with
  | nil => intro bs cs h1 h2; simp [char_list_le]
  | cons a as ih =>
    intro bs cs h1 h2
    cases bs with
    | nil => simp [char_list_le] at h1
    | cons b bs =>
      cases cs with
      | nil => simp [char_list_le] at h2
      | cons c cs =>
        simp only [char_list_le] at h1 h2 ⊢
        by_cases hab1 : a.toNat < b.toNat
        · by_cases hbc1 : b.toNat < c.toNat
          · have h3 : a.toNat < c.toNat := Nat.lt_trans hab1 hbc1
            simp [h3]
          · by_cases hbc2 : c.toNat < b.toNat
            · rw [if_neg hbc1, if_pos hbc2] at h2; simp at h2
            · have h3 : a.toNat < c.toNat := by omega
              simp [h3]
        · by_cases hab2 : b.toNat < a.toNat
          · rw [if_neg hab1, if_pos hab2] at h1; simp at h1
          · rw [if_neg hab1, if_neg hab2] at h1
            by_cases hbc1 : b.toNat < c.toNat
            · have h3 : a.toNat < c.toNat := by omega
              simp [h3]
            · by_cases hbc2 : c.toNat < b.toNat
              · rw [if_neg hbc1, if_pos hbc2] at h2; simp at h2
              · rw [if_neg hbc1, if_neg hbc2] at h2
                have h3 : ¬ a.toNat < c.toNat := by omega
                have h4 : ¬ c.toNat < a.toNat := by omega
                rw [if_neg h3, if_neg h4]
                exact ih bs cs h1 h2

theorem insert_by_perm (le : α → α → Bool) (a : α) (l : List α) :
    (insert_by le a l).Perm (a :: l) := by
  induction l with
  | nil => exact List.Perm.refl _
  | cons b bs ih =>
    by_cases h : le b a = true
    · simp only [insert_by, if_pos h]
      exact (ih.cons b).trans (List.Perm.swap a b bs)
    · simp only [insert_by, if_neg h]
      exact List.Perm.refl _

theorem foldl_insert_by_perm (le : α → α → Bool) (l : List α) :
    ∀ acc : List α,
    (l.foldl (fun acc a => insert_by le a acc) acc).Perm (acc ++ l) := by
  induction l with
  | nil => intro acc; simp
  | cons a t ih =>
    intro acc
    simp only [List.foldl_cons]
    refine (ih (insert_by le a acc)).trans ?_
    refine (((insert_by_perm le a acc).append_right t).trans ?_)
    exact List.perm_middle.symm

theorem sort_by_perm (le : α → α → Bool) (l : List α) : (sort_by le l).Perm l := by
  simpa using foldl_insert_by_perm le l []

theorem mem_sort_by (le : α → α → Bool) (l : List α) (a : α) :
    a ∈ sort_by le l ↔ a ∈ l :=
  (sort_by_perm le l).mem_iff

theorem insert_by_pairwise (le : α → α → Bool)
    (htrans : ∀ a b c, le a b = true → le b c = true → le a c = true)
    (htotal : ∀ a b, le a b = true ∨ le b a = true)
    (a : α) (l : List α) (h : l.Pairwise (fun x y => le x y = true)) :
    (insert_by le a l).Pairwise (fun x y => le x y = true) := by
  induction l with
  | nil => simp [insert_by]
  | cons b bs ih =>
    rcases List.pairwise_cons.mp h with ⟨hb, hbs⟩
    by_cases hba : le b a = true
    · simp only [insert_by, if_pos hba]
      refine List.pairwise_cons.mpr ⟨?_, ih hbs⟩
      intro x hx
      have hx2 : x = a ∨ x ∈ bs := by
        have h3 := (insert_by_perm le a bs).mem_iff.mp hx
        simpa using h3
      rcases hx2 with rfl | hx2
      · exact hba
      · exact hb x hx2
    · have hab : le a b = true := (htotal a b).resolve_right hba
      simp only [insert_by, if_neg hba]
      refine List.pairwise_cons.mpr ⟨?_, h⟩
      intro x hx
      rcases List.mem_cons.mp hx with rfl | hx2
      · exact hab
      · exact htrans a b x hab (hb x hx2)

theorem sort_by_pairwise (le : α → α → Bool)
    (htrans : ∀ a b c, le a b = true → le b c = true → le a c = true)
    (htotal : ∀ a b, le a b = true ∨ le b a = true)
    (l : List α) : (sort_by le l).Pairwise (fun x y => le x y = true) := by
  suffices h : ∀ acc : List α, acc.Pairwise (fun x y => le x y = true) →
      (l.foldl (fun acc a => insert_by le a acc) acc).Pairwise
        (fun x y => le x y = true) by
    exact h [] (by simp)
  induction l with
  | nil => intro acc hacc; simpa using hacc
  | cons a t ih =>
    intro acc hacc
    simp only [List.foldl_cons]
    exact ih _ (insert_by_pairwise le htrans htotal a acc hacc)

theorem pairwise_le_getLast (le : α → α → Bool)
    (htotal : ∀ a b, le a b = true ∨ le b a = true) :
    ∀ (l : List α) (c : α), l.Pairwise (fun x y => le x y = true) →
    l.getLast? = some c → ∀ x ∈ l, le x c = true := by
  intro l
  induction l with
  | nil => intro c _ hc; simp at hc
  | cons a t ih =>
    intro c hs hc x hx
    cases t with
    | nil =>
      simp at hc hx
      subst hc; subst hx
      rcases htotal x x with h | h <;> exact h
    | cons b bs =>
      have hc2 : (b :: bs).getLast? = some c := by
        simpa [List.getLast?_cons_cons] using hc
      rcases List.pairwise_cons.mp hs with ⟨ha, ht⟩
      rcases List.mem_cons.mp hx with rfl | hx2
      · have hcm : c ∈ b :: bs := by
          obtain ⟨ys, hys⟩ := List.getLast?_eq_some_iff.mp hc2
          rw [hys]
          simp
        exact ha c hcm
      · exact ih c ht hc2 x hx2

theorem is_paid_of_unpaid_mask (v : Option String) :
    unpaid_mask v = true → is_paid v = false := by
  cases v with
  | none => intro _; rfl
  | some s =>
    intro h
    simp only [unpaid_mask, beq_iff_eq] at h
    by_cases hs : s = ""
    · simp [is_paid, hs]
    · simp [is_paid, hs, h]

/-- Claim C4 (amended): a month label absent from the snapshot columns yields
an empty list from both queries; for a present label, listPaid returns exactly
the records whose cell passes is_paid (paid-full or paid-partial), while
listUnpaid returns exactly the records whose cell is missing or blank — a
record with a dash or zero cell therefore appears in neither list, though no
record ever appears in both. -/
theorem C4_month_lists (st : StoreState) (month : String) (r : Record) :
    (st.cols.contains (str_strip (str_upper month)) = false →
      get_unpaid_by_month st month = [] ∧ get_paid_by_month st month = []) ∧
    (st.cols.contains (str_strip (str_upper month)) = true →
      (r ∈ get_unpaid_by_month st month ↔
        r ∈ st.records ∧ unpaid_mask (cell r (str_strip (str_upper month))) = true) ∧
      (r ∈ get_paid_by_month st month ↔
        r ∈ st.records ∧ is_paid (cell r (str_strip (str_upper month))) = true) ∧
      ¬(r ∈ get_unpaid_by_month st month ∧ r ∈ get_paid_by_month st month)) := by
  constructor
  · intro h
    constructor
    · simp only [get_unpaid_by_month, h]
      rfl
    · simp only [get_paid_by_month, h]
      rfl
  · intro h
    have hu : r ∈ get_unpaid_by_month st month ↔
        r ∈ st.records ∧ unpaid_mask (cell r (str_strip (str_upper month))) = true := by
      simp only [get_unpaid_by_month, h, Bool.not_true, Bool.false_eq_true, if_false,
        mem_sort_by, List.mem_filter]
    have hp : r ∈ get_paid_by_month st month ↔
        r ∈ st.records ∧ is_paid (cell r (str_strip (str_upper month))) = true := by
      simp only [get_paid_by_month, h, Bool.not_true, Bool.false_eq_true, if_false,
        mem_sort_by, List.mem_filter]
    refine ⟨hu, hp, ?_⟩
    rintro ⟨h1, h2⟩
    have hm1 := (hu.mp h1).2
    have hm2 := (hp.mp h2).2
    rw [is_paid_of_unpaid_mask _ hm1] at hm2
    exact Bool.false_ne_true hm2

/-- Witness for C4: in a snapshot with one record whose cell for the only
month label is empty, the record is in the unpaid list and the paid list of a
label that is not a column is empty. -/
theorem C4_month_lists_witness :
    (⟨"1", "Ana", [("JAN'26", some "")], some "v"⟩ : Record) ∈
      get_unpaid_by_month
        ⟨[⟨"1", "Ana", [("JAN'26", some "")], some "v"⟩],
         ["ID", "Nama", "Nominal", "JAN'26"], ["JAN'26"]⟩ "jan'26" :=
  (((C4_month_lists
      ⟨[⟨"1", "Ana", [("JAN'26", some "")], some "v"⟩],
       ["ID", "Nama", "Nominal", "JAN'26"], ["JAN'26"]⟩ "jan'26"
      ⟨"1", "Ana", [("JAN'26", some "")], some "v"⟩).2 (by decide)).1).mpr
    ⟨by decide, by decide⟩

/-- Counterexample to C4 as stated: a record whose cell for the month is a
dash is unpaid in the Payment Status classification of the spec, yet it
appears in neither the unpaid list (whose mask only accepts missing or blank
cells) nor the paid list. -/
theorem C4_counterexample :
    spec_unpaid_cell (cell ⟨"1", "Ana", [("JAN'26", some "-")], some "v"⟩ "JAN'26")
        = true ∧
    get_unpaid_by_month
      ⟨[⟨"1", "Ana", [("JAN'26", some "-")], some "v"⟩],
       ["ID", "Nama", "Nominal", "JAN'26"], ["JAN'26"]⟩ "JAN'26" = [] ∧
    get_paid_by_month
      ⟨[⟨"1", "Ana", [("JAN'26", some "-")], some "v"⟩],
       ["ID", "Nama", "Nominal", "JAN'26"], ["JAN'26"]⟩ "JAN'26" = [] := by
  exact ⟨by decide, by decide, by decide⟩

/-! ### Helper lemmas about the update model -/

theorem findIdx?_some_lt_add (p : α → Bool) :
    ∀ (l : List α) (s i : Nat), List.findIdx? p l s = some i → i < s + l.length := by
  intro l
  induction l with
  | nil => intro s i h; simp [List.findIdx?] at h
  | cons a t ih =>
    intro s i h
    rw [List.findIdx?_cons] at h
    by_cases hp : p a = true
    · rw [if_pos hp] at h
      cases h
      simp
    · rw [if_neg hp] at h
      have h2 := ih (s + 1) i h
      simp only [List.length_cons]
      omega

theorem idxOfRow_lt (vf : VFile) (id_str : String) (idx : Nat)
    (h : idxOfRow vf id_str = some idx) : idx < vf.rows.length := by
  have h2 := findIdx?_some_lt_add _ _ 0 idx h
  simpa using h2


theorem lookup_map_replace_ne (m c : String) (v : String)
    (row : List (String × Option String)) (h : c ≠ m) :
    (row.map (fun p => if p.1 == m then (p.1, some v) else p)).lookup c =
      row.lookup c := by
  induction row with
  | nil => rfl
  | cons p t ih =>
    obtain ⟨k, w⟩ := p
    by_cases hp : k = m
    · have hb : (k == m) = true := by simp [hp]
      have hc : (c == k) = false := by simp [hp, h]
      simp only [List.map_cons, hb, if_true, List.lookup_cons, hc]
      exact ih
    · have hb : (k == m) = false := by simp [hp]
      simp only [List.map_cons, hb, Bool.false_eq_true, if_false, List.lookup_cons]
      cases hcp : (c == k) with
      | true => rfl
      | false => exact ih

theorem lookup_append_single_ne (m c : String) (x : Option String)
    (row : List (String × Option String)) (h : c ≠ m) :
    (row ++ [(m, x)]).lookup c = row.lookup c := by
  induction row with
  | nil =>
    have hb : (c == m) = false := by simp [h]
    simp [List.lookup_cons, hb]
  | cons p t ih =>
    obtain ⟨k, w⟩ := p
    simp only [List.cons_append, List.lookup_cons]
    cases hcp : (c == k) with
    | true => rfl
    | false => exact ih

theorem rowCell_setCell_ne (row : List (String × Option String)) (m c v : String)
    (h : c ≠ m) : rowCell (setCell row m v) c = rowCell row c := by
  unfold setCell rowCell
  by_cases hp : (row.lookup m).isSome
  · rw [if_pos hp, lookup_map_replace_ne m c v row h]
  · rw [if_neg hp, lookup_append_single_ne m c (some v) row h]

theorem lookup_map_replace_self (m : String) (v : String)
    (row : List (String × Option String)) (h : (row.lookup m).isSome = true) :
    (row.map (fun p => if p.1 == m then (p.1, some v) else p)).lookup m =
      some (some v) := by
  induction row with
  | nil => simp at h
  | cons p t ih =>
    obtain ⟨k, w⟩ := p
    by_cases hp : k = m
    · subst hp
      simp [List.map_cons, List.lookup_cons]
    · have hb : (k == m) = false := by simp [hp]
      have hm : (m == k) = false := beq_eq_false_iff_ne.mpr (fun he => hp he.symm)
      rw [List.lookup_cons, hm] at h
      simp only [List.map_cons, hb, Bool.false_eq_true, if_false, List.lookup_cons, hm]
      exact ih h

theorem lookup_append_single_self (m : String) (x : Option String) :
    ∀ row : List (String × Option String), row.lookup m = none →
    (row ++ [(m, x)]).lookup m = some x := by
  intro row
  induction row with
  | nil =>
    intro _
    simp [List.lookup_cons]
  | cons p t ih =>
    obtain ⟨k, w⟩ := p
    intro hnone
    rw [List.lookup_cons] at hnone
    cases hmp : (m == k) with
    | true => rw [hmp] at hnone; simp at hnone
    | false =>
      rw [hmp] at hnone
      simp only [List.cons_append, List.lookup_cons, hmp]
      exact ih hnone

theorem rowCell_setCell_self (row : List (String × Option String)) (m v : String) :
    rowCell (setCell row m v) m = some v := by
  unfold setCell rowCell
  by_cases hp : (row.lookup m).isSome
  · rw [if_pos hp, lookup_map_replace_self m v row hp]
  · rw [if_neg hp]
    have hnone : row.lookup m = none := by
      cases hr : row.lookup m with
      | none => rfl
      | some x => rw [hr] at hp; simp at hp
    rw [lookup_append_single_self m (some v) row hnone]

theorem lookup_replaceFile_self (fs : List (String × DiskFile)) (v : String)
    (nf : VFile) (d : DiskFile) (h : fs.lookup v = some d) :
    (replaceFile fs v nf).lookup v = some (DiskFile.good nf) := by
  induction fs with
  | nil => simp at h
  | cons p t ih =>
    obtain ⟨k, w⟩ := p
    rw [List.lookup_cons] at h
    by_cases hp : k = v
    · subst hp
      simp [replaceFile, List.lookup_cons]
    · have hb : (k == v) = false := by simp [hp]
      have hv : (v == k) = false := beq_eq_false_iff_ne.mpr (fun he => hp he.symm)
      rw [hv] at h
      simp only [replaceFile, List.map_cons, hb, Bool.false_eq_true, if_false]
      rw [List.lookup_cons, hv]
      exact ih h

theorem lookup_replaceFile_ne (fs : List (String × DiskFile)) (v w : String)
    (nf : VFile) (h : w ≠ v) :
    (replaceFile fs v nf).lookup w = fs.lookup w := by
  induction fs with
  | nil => rfl
  | cons p t ih =>
    obtain ⟨k, x⟩ := p
    by_cases hp : k = v
    · have hb : (k == v) = true := by simp [hp]
      have hw : (w == k) = false := by simp [hp, h]
      simp only [replaceFile, List.map_cons, hb, if_true, List.lookup_cons, hw]
      exact ih
    · have hb : (k == v) = false := by simp [hp]
      simp only [replaceFile, List.map_cons, hb, Bool.false_eq_true, if_false,
        List.lookup_cons]
      cases hwp : (w == k) with
      | true => rfl
      | false => exact ih


theorem update_fail_frame (df : List UpdRow) (fs : List (String × DiskFile))
    (wp : Bool) (id_warga month_col value : String) (incr sf rf : Bool) :
    (update_payment_sync df fs wp id_warga month_col value incr sf rf).ok = false →
    (update_payment_sync df fs wp id_warga month_col value incr sf rf).fs = fs ∧
    (update_payment_sync df fs wp id_warga month_col value incr sf rf).reloaded
      = false := by
  intro h
  cases hfind : df.find? (fun r => str_strip r.id == str_strip id_warga) with
  | none => simp [update_payment_sync, hfind]
  | some res =>
    cases hlook : fs.lookup (str_strip (str_lower res.village)) with
    | none => simp [update_payment_sync, hfind, hlook]
    | some d =>
      cases d with
      | bad => simp [update_payment_sync, hfind, hlook]
      | good vf =>
        by_cases hidc : "ID" ∈ vf.cols
        · cases hidx : idxOfRow vf (str_strip id_warga) with
          | none => simp [update_payment_sync, hfind, hlook, hidc, hidx]
          | some idx =>
            cases incr with
            | true =>
              by_cases hmc : month_col ∈ vf.cols
              · cases sf with
                | true => simp [update_payment_sync, hfind, hlook, hidc, hidx, hmc]
                | false =>
                  cases rf with
                  | true => simp [update_payment_sync, hfind, hlook, hidc, hidx, hmc]
                  | false =>
                    simp [update_payment_sync, hfind, hlook, hidc, hidx, hmc] at h
              · simp [update_payment_sync, hfind, hlook, hidc, hidx, hmc]
            | false =>
              cases sf with
              | true => simp [update_payment_sync, hfind, hlook, hidc, hidx]
              | false =>
                cases rf with
                | true => simp [update_payment_sync, hfind, hlook, hidc, hidx]
                | false =>
                  simp [update_payment_sync, hfind, hlook, hidc, hidx] at h
        · simp [update_payment_sync, hfind, hlook, hidc]

theorem update_stage_fail (df : List UpdRow) (fs : List (String × DiskFile))
    (wp : Bool) (id_warga month_col value : String) (incr rf : Bool) :
    (update_payment_sync df fs wp id_warga month_col value incr true rf).ok
      = false := by
  cases hfind : df.find? (fun r => str_strip r.id == str_strip id_warga) with
  | none => simp [update_payment_sync, hfind]
  | some res =>
    cases hlook : fs.lookup (str_strip (str_lower res.village)) with
    | none => simp [update_payment_sync, hfind, hlook]
    | some d =>
      cases d with
      | bad => simp [update_payment_sync, hfind, hlook]
      | good vf =>
        by_cases hidc : "ID" ∈ vf.cols
        · cases hidx : idxOfRow vf (str_strip id_warga) with
          | none => simp [update_payment_sync, hfind, hlook, hidc, hidx]
          | some idx =>
            cases incr with
            | true =>
              by_cases hmc : month_col ∈ vf.cols <;>
                simp [update_payment_sync, hfind, hlook, hidc, hidx, hmc]
            | false => simp [update_payment_sync, hfind, hlook, hidc, hidx]
        · simp [update_payment_sync, hfind, hlook, hidc]

theorem update_rename_fail (df : List UpdRow) (fs : List (String × DiskFile))
    (wp : Bool) (id_warga month_col value : String) (incr sf : Bool) :
    (update_payment_sync df fs wp id_warga month_col value incr sf true).ok
      = false := by
  cases hfind : df.find? (fun r => str_strip r.id == str_strip id_warga) with
  | none => simp [update_payment_sync, hfind]
  | some res =>
    cases hlook : fs.lookup (str_strip (str_lower res.village)) with
    | none => simp [update_payment_sync, hfind, hlook]
    | some d =>
      cases d with
      | bad => simp [update_payment_sync, hfind, hlook]
      | good vf =>
        by_cases hidc : "ID" ∈ vf.cols
        · cases hidx : idxOfRow vf (str_strip id_warga) with
          | none => simp [update_payment_sync, hfind, hlook, hidc, hidx]
          | some idx =>
            cases incr with
            | true =>
              by_cases hmc : month_col ∈ vf.cols <;> cases sf <;>
                simp [update_payment_sync, hfind, hlook, hidc, hidx, hmc]
            | false =>
              cases sf <;> simp [update_payment_sync, hfind, hlook, hidc, hidx]
        · simp [update_payment_sync, hfind, hlook, hidc]

/-- Claim C2: updatePayment returns false when the id is not in the merged
frame, when the village file is missing (or does not parse), when the id is
not found inside that file, and when staging or the atomic replace fails; and
whenever it returns false the billing files on disk are unchanged and the
post-write reload did not run. -/
theorem C2_update_failure (df : List UpdRow) (fs : List (String × DiskFile))
    (wp : Bool) (id_warga month_col value : String) (incr sf rf : Bool) :
    ((update_payment_sync df fs wp id_warga month_col value incr sf rf).ok = false →
      (update_payment_sync df fs wp id_warga month_col value incr sf rf).fs = fs ∧
      (update_payment_sync df fs wp id_warga month_col value incr sf rf).reloaded
        = false) ∧
    (df.find? (fun r => str_strip r.id == str_strip id_warga) = none →
      (update_payment_sync df fs wp id_warga month_col value incr sf rf).ok = false) ∧
    (∀ res : UpdRow,
      df.find? (fun r => str_strip r.id == str_strip id_warga) = some res →
      fs.lookup (str_strip (str_lower res.village)) = none →
      (update_payment_sync df fs wp id_warga month_col value incr sf rf).ok = false) ∧
    (∀ (res : UpdRow) (vf : VFile),
      df.find? (fun r => str_strip r.id == str_strip id_warga) = some res →
      fs.lookup (str_strip (str_lower res.village)) = some (DiskFile.good vf) →
      idxOfRow vf (str_strip id_warga) = none →
      (update_payment_sync df fs wp id_warga month_col value incr sf rf).ok = false) ∧
    (sf = true →
      (update_payment_sync df fs wp id_warga month_col value incr sf rf).ok = false) ∧
    (rf = true →
      (update_payment_sync df fs wp id_warga month_col value incr sf rf).ok = false) := by
  refine ⟨update_fail_frame df fs wp id_warga month_col value incr sf rf,
    ?_, ?_, ?_, ?_, ?_⟩
  · intro h
    simp [update_payment_sync, h]
  · intro res hf hl
    simp [update_payment_sync, hf, hl]
  · intro res vf hf hl hi
    by_cases hidc : "ID" ∈ vf.cols <;>
      simp [update_payment_sync, hf, hl, hi, hidc]
  · intro hsf
    subst hsf
    exact update_stage_fail df fs wp id_warga month_col value incr rf
  · intro hrf
    subst hrf
    exact update_rename_fail df fs wp id_warga month_col value incr sf

/-- Witness for C2: updating an id whose village file does not exist returns
false and leaves the filesystem untouched without reloading. -/
theorem C2_update_failure_witness :
    (update_payment_sync [⟨"7", "desa"⟩] [] false "7" "JAN'26" "100" true
      false false).ok = false ∧
    (update_payment_sync [⟨"7", "desa"⟩] [] false "7" "JAN'26" "100" true
      false false).fs = [] ∧
    (update_payment_sync [⟨"7", "desa"⟩] [] false "7" "JAN'26" "100" true
      false false).reloaded = false := by
  have h := C2_update_failure [⟨"7", "desa"⟩] [] false "7" "JAN'26" "100" true
    false false
  have hok := h.2.2.1 ⟨"7", "desa"⟩ (by decide) (by decide)
  have hframe := h.1 hok
  exact ⟨hok, hframe.1, hframe.2⟩

theorem update_success_eq (df : List UpdRow) (fs : List (String × DiskFile))
    (wp : Bool) (id_warga month_col value : String) (incr : Bool)
    (res : UpdRow) (vf : VFile) (idx : Nat)
    (hfind : df.find? (fun r => str_strip r.id == str_strip id_warga) = some res)
    (hlook : fs.lookup (str_strip (str_lower res.village)) = some (DiskFile.good vf))
    (hidc : "ID" ∈ vf.cols)
    (hidx : idxOfRow vf (str_strip id_warga) = some idx)
    (hmc : month_col ∈ vf.cols) :
    update_payment_sync df fs wp id_warga month_col value incr false false =
      ⟨true,
       replaceFile fs (str_strip (str_lower res.village))
         ⟨vf.titleRows, vf.cols,
          vf.rows.set idx (setCell (vf.rows.getD idx []) month_col
            (if incr then
              toString (parse_nominal (rowCell (vf.rows.getD idx []) month_col) +
                parse_nominal (some value))
             else toString (parse_nominal (some value))))⟩,
       false, true⟩ := by
  cases incr <;>
    simp [update_payment_sync, hfind, hlook, hidc, hidx, hmc,
      List.getD_eq_getElem?_getD]

theorem update_rename_shape (df : List UpdRow) (fs : List (String × DiskFile))
    (wp : Bool) (id_warga month_col value : String) (incr : Bool)
    (res : UpdRow) (vf : VFile) (idx : Nat)
    (hfind : df.find? (fun r => str_strip r.id == str_strip id_warga) = some res)
    (hlook : fs.lookup (str_strip (str_lower res.village)) = some (DiskFile.good vf))
    (hidc : "ID" ∈ vf.cols)
    (hidx : idxOfRow vf (str_strip id_warga) = some idx)
    (hmc : month_col ∈ vf.cols) :
    update_payment_sync df fs wp id_warga month_col value incr false true =
      ⟨false, fs, true, false⟩ := by
  cases incr <;>
    simp [update_payment_sync, hfind, hlook, hidc, hidx, hmc]

/-- Claim C3 (amended): a successful updatePayment rewrites the target village
file so that the preamble lines up to and including the header row are
preserved verbatim, the column list is unchanged, and in the table below at
most the one cell at the target row and given (existing) month column changes
— that cell now holds the serialized updated amount, every other row, every
other cell of the target row, and every other file are unchanged.  (The
target cell need not differ from its previous content: writing the amount the
cell already holds is a successful update that changes nothing.) -/
theorem C3_update_frame (df : List UpdRow) (fs : List (String × DiskFile))
    (wp : Bool) (id_warga month_col value : String) (incr : Bool)
    (res : UpdRow) (vf : VFile) (idx : Nat)
    (hfind : df.find? (fun r => str_strip r.id == str_strip id_warga) = some res)
    (hlook : fs.lookup (str_strip (str_lower res.village)) = some (DiskFile.good vf))
    (hidc : "ID" ∈ vf.cols)
    (hidx : idxOfRow vf (str_strip id_warga) = some idx)
    (hmc : month_col ∈ vf.cols) :
    (update_payment_sync df fs wp id_warga month_col value incr false false).ok
      = true ∧
    (∃ nf : VFile,
      (update_payment_sync df fs wp id_warga month_col value incr false
          false).fs.lookup (str_strip (str_lower res.village)) =
        some (DiskFile.good nf) ∧
      nf.titleRows = vf.titleRows ∧
      nf.cols = vf.cols ∧
      nf.rows.length = vf.rows.length ∧
      (∀ j : Nat, j ≠ idx → nf.rows[j]? = vf.rows[j]?) ∧
      (∀ c : String, c ≠ month_col →
        rowCell (nf.rows.getD idx []) c = rowCell (vf.rows.getD idx []) c) ∧
      rowCell (nf.rows.getD idx []) month_col =
        some (if incr then
          toString (parse_nominal (rowCell (vf.rows.getD idx []) month_col) +
            parse_nominal (some value))
          else toString (parse_nominal (some value)))) ∧
    (∀ w : String, w ≠ str_strip (str_lower res.village) →
      (update_payment_sync df fs wp id_warga month_col value incr false
          false).fs.lookup w = fs.lookup w) := by
  have hu := update_success_eq df fs wp id_warga month_col value incr res vf idx
    hfind hlook hidc hidx hmc
  rw [hu]
  have hlt : idx < vf.rows.length := idxOfRow_lt vf (str_strip id_warga) idx hidx
  have hset : ∀ x : List (String × Option String),
      ((vf.rows.set idx x).getD idx []) = x := by
    intro x
    rw [List.getD_eq_getElem?_getD, List.getElem?_set_self hlt]
    rfl
  refine ⟨rfl, ⟨⟨vf.titleRows, vf.cols,
      vf.rows.set idx (setCell (vf.rows.getD idx []) month_col
        (if incr then
          toString (parse_nominal (rowCell (vf.rows.getD idx []) month_col) +
            parse_nominal (some value))
          else toString (parse_nominal (some value))))⟩,
    ?_, rfl, rfl, ?_, ?_, ?_, ?_⟩, ?_⟩
  · exact lookup_replaceFile_self fs _ _ _ hlook
  · exact List.length_set vf.rows idx _
  · intro j hj
    exact List.getElem?_set_ne (Ne.symm hj)
  · intro c hc
    show rowCell ((vf.rows.set idx _).getD idx []) c = _
    rw [hset]
    exact rowCell_setCell_ne _ _ _ _ hc
  · show rowCell ((vf.rows.set idx _).getD idx []) month_col = _
    rw [hset]
    exact rowCell_setCell_self _ _ _
  · intro w hw
    exact lookup_replaceFile_ne fs _ w _ hw

/-- Witness for C3 at a concrete billing file: the update succeeds and the
rewritten file keeps the preamble and every cell but the target one. -/
theorem C3_update_frame_witness :
    (update_payment_sync [⟨"7", "desa"⟩]
      [("desa", DiskFile.good ⟨["Judul", "No,Nama,Nominal"],
        ["ID", "Nama", "Nominal", "JAN'26"],
        [[("ID", some "7"), ("Nama", some "Ali"), ("Nominal", some "50,000"),
          ("JAN'26", some "0")]]⟩)]
      false "7" "JAN'26" "20000" true false false).ok = true :=
  (C3_update_frame [⟨"7", "desa"⟩]
    [("desa", DiskFile.good ⟨["Judul", "No,Nama,Nominal"],
      ["ID", "Nama", "Nominal", "JAN'26"],
      [[("ID", some "7"), ("Nama", some "Ali"), ("Nominal", some "50,000"),
        ("JAN'26", some "0")]]⟩)]
    false "7" "JAN'26" "20000" true ⟨"7", "desa"⟩
    ⟨["Judul", "No,Nama,Nominal"], ["ID", "Nama", "Nominal", "JAN'26"],
      [[("ID", some "7"), ("Nama", some "Ali"), ("Nominal", some "50,000"),
        ("JAN'26", some "0")]]⟩ 0
    (by decide) (by decide) (by decide) (by decide) (by decide)).1

/-- Counterexample to C3 as stated: a successful set-mode update that writes
the value the cell already holds changes no cell at all, so it is not true
that exactly one cell differs after every successful update. -/
theorem C3_counterexample :
    (update_payment_sync [⟨"7", "desa"⟩]
      [("desa", DiskFile.good ⟨["Judul"], ["ID", "Nama", "Nominal", "JAN'26"],
        [[("ID", some "7"), ("Nama", some "Ali"), ("Nominal", some "50,000"),
          ("JAN'26", some "0")]]⟩)]
      false "7" "JAN'26" "0" false false false).ok = true ∧
    (update_payment_sync [⟨"7", "desa"⟩]
      [("desa", DiskFile.good ⟨["Judul"], ["ID", "Nama", "Nominal", "JAN'26"],
        [[("ID", some "7"), ("Nama", some "Ali"), ("Nominal", some "50,000"),
          ("JAN'26", some "0")]]⟩)]
      false "7" "JAN'26" "0" false false false).fs =
      [("desa", DiskFile.good ⟨["Judul"], ["ID", "Nama", "Nominal", "JAN'26"],
        [[("ID", some "7"), ("Nama", some "Ali"), ("Nominal", some "50,000"),
          ("JAN'26", some "0")]]⟩)] := by
  exact ⟨by decide, by decide⟩

/-- Claim C9: on a successful update, increment mode stores the sum of the
amount parsed from the cell as re-read fresh from the billing file on disk
and the parsed given amount, while set mode stores the parsed given amount;
in particular two increment updates of 20000 in sequence starting from a cell
holding 0 leave the stored cell at 40000. -/
theorem C9_payment_modes (df : List UpdRow) (fs : List (String × DiskFile))
    (wp : Bool) (id_warga month_col value : String) (incr : Bool)
    (res : UpdRow) (vf : VFile) (idx : Nat)
    (hfind : df.find? (fun r => str_strip r.id == str_strip id_warga) = some res)
    (hlook : fs.lookup (str_strip (str_lower res.village)) = some (DiskFile.good vf))
    (hidc : "ID" ∈ vf.cols)
    (hidx : idxOfRow vf (str_strip id_warga) = some idx)
    (hmc : month_col ∈ vf.cols) :
    (storedCell (update_payment_sync df fs wp id_warga month_col value incr
        false false).fs (str_strip (str_lower res.village)) idx month_col =
      some (if incr then
        toString (parse_nominal (storedCell fs (str_strip (str_lower res.village))
            idx month_col) + parse_nominal (some value))
        else toString (parse_nominal (some value)))) ∧
    storedCell (update_payment_sync [⟨"7", "desa"⟩]
        (update_payment_sync [⟨"7", "desa"⟩]
          [("desa", DiskFile.good ⟨["Judul"], ["ID", "Nama", "Nominal", "JAN'26"],
            [[("ID", some "7"), ("Nama", some "Ali"),
              ("Nominal", some "50,000"), ("JAN'26", some "0")]]⟩)]
          false "7" "JAN'26" "20000" true false false).fs
        (update_payment_sync [⟨"7", "desa"⟩]
          [("desa", DiskFile.good ⟨["Judul"], ["ID", "Nama", "Nominal", "JAN'26"],
            [[("ID", some "7"), ("Nama", some "Ali"),
              ("Nominal", some "50,000"), ("JAN'26", some "0")]]⟩)]
          false "7" "JAN'26" "20000" true false false).watcherPaused
        "7" "JAN'26" "20000" true false false).fs "desa" 0 "JAN'26" =
      some "40000" := by
  constructor
  · have hu := update_success_eq df fs wp id_warga month_col value incr res vf idx
      hfind hlook hidc hidx hmc
    rw [hu]
    have hlt : idx < vf.rows.length := idxOfRow_lt vf (str_strip id_warga) idx hidx
    simp only [storedCell, lookup_replaceFile_self fs _ _ _ hlook, hlook]
    have hset : ∀ x : List (String × Option String),
        ((vf.rows.set idx x).getD idx []) = x := by
      intro x
      rw [List.getD_eq_getElem?_getD, List.getElem?_set_self hlt]
      rfl
    rw [hset]
    rw [rowCell_setCell_self]
  · decide

/-- Witness for C9: one increment of 20000 on a cell freshly read as 0 stores
the string 20000. -/
theorem C9_payment_modes_witness :
    storedCell (update_payment_sync [⟨"7", "desa"⟩]
      [("desa", DiskFile.good ⟨["Judul"], ["ID", "Nama", "Nominal", "JAN'26"],
        [[("ID", some "7"), ("Nama", some "Ali"), ("Nominal", some "50,000"),
          ("JAN'26", some "0")]]⟩)]
      false "7" "JAN'26" "20000" true false false).fs "desa" 0 "JAN'26" =
      some "20000" :=
  ((C9_payment_modes [⟨"7", "desa"⟩]
    [("desa", DiskFile.good ⟨["Judul"], ["ID", "Nama", "Nominal", "JAN'26"],
      [[("ID", some "7"), ("Nama", some "Ali"), ("Nominal", some "50,000"),
        ("JAN'26", some "0")]]⟩)]
    false "7" "JAN'26" "20000" true ⟨"7", "desa"⟩
    ⟨["Judul"], ["ID", "Nama", "Nominal", "JAN'26"],
      [[("ID", some "7"), ("Nama", some "Ali"), ("Nominal", some "50,000"),
        ("JAN'26", some "0")]]⟩ 0
    (by decide) (by decide) (by decide) (by decide) (by decide)).1).trans
    (by decide)

/-- Claim C10: when the rename step of the atomic replace fails after staging
succeeded, the call returns false with the watcher still paused, no reload
runs and the files are unchanged; a watcher in the paused state drops a
delivered event entirely (no timer is scheduled, no callback fires); and a
subsequent successful updatePayment ends with the watcher resumed. -/
theorem C10_rename_fail_stays_paused (df : List UpdRow)
    (fs : List (String × DiskFile)) (wp : Bool)
    (id_warga month_col value : String) (incr : Bool)
    (res : UpdRow) (vf : VFile) (idx : Nat)
    (hfind : df.find? (fun r => str_strip r.id == str_strip id_warga) = some res)
    (hlook : fs.lookup (str_strip (str_lower res.village)) = some (DiskFile.good vf))
    (hidc : "ID" ∈ vf.cols)
    (hidx : idxOfRow vf (str_strip id_warga) = some idx)
    (hmc : month_col ∈ vf.cols) :
    ((update_payment_sync df fs wp id_warga month_col value incr false true).ok
        = false ∧
      (update_payment_sync df fs wp id_warga month_col value incr false
        true).watcherPaused = true ∧
      (update_payment_sync df fs wp id_warga month_col value incr false
        true).reloaded = false ∧
      (update_payment_sync df fs wp id_warga month_col value incr false
        true).fs = fs) ∧
    (∀ (n : Nat) (b : Bool),
      wrun ⟨true, false, 0, n, b⟩ [WAct.evCheck, WAct.evSchedule, WAct.timerFire]
        = ⟨true, false, 2, n, b⟩) ∧
    (update_payment_sync df fs wp id_warga month_col value incr false
      false).watcherPaused = false := by
  have hr := update_rename_shape df fs wp id_warga month_col value incr res vf idx
    hfind hlook hidc hidx hmc
  have hs := update_success_eq df fs wp id_warga month_col value incr res vf idx
    hfind hlook hidc hidx hmc
  refine ⟨?_, ?_, ?_⟩
  · rw [hr]
    exact ⟨rfl, rfl, rfl, rfl⟩
  · intro n b
    rfl
  · rw [hs]

/-- Witness for C10: a concrete rename failure returns false and leaves the
watcher paused. -/
theorem C10_rename_fail_stays_paused_witness :
    (update_payment_sync [⟨"7", "desa"⟩]
      [("desa", DiskFile.good ⟨["Judul"], ["ID", "Nama", "Nominal", "JAN'26"],
        [[("ID", some "7"), ("Nama", some "Ali"), ("Nominal", some "50,000"),
          ("JAN'26", some "0")]]⟩)]
      false "7" "JAN'26" "20000" true false true).ok = false ∧
    (update_payment_sync [⟨"7", "desa"⟩]
      [("desa", DiskFile.good ⟨["Judul"], ["ID", "Nama", "Nominal", "JAN'26"],
        [[("ID", some "7"), ("Nama", some "Ali"), ("Nominal", some "50,000"),
          ("JAN'26", some "0")]]⟩)]
      false "7" "JAN'26" "20000" true false true).watcherPaused = true :=
  ⟨((C10_rename_fail_stays_paused [⟨"7", "desa"⟩]
    [("desa", DiskFile.good ⟨["Judul"], ["ID", "Nama", "Nominal", "JAN'26"],
      [[("ID", some "7"), ("Nama", some "Ali"), ("Nominal", some "50,000"),
        ("JAN'26", some "0")]]⟩)]
    false "7" "JAN'26" "20000" true ⟨"7", "desa"⟩
    ⟨["Judul"], ["ID", "Nama", "Nominal", "JAN'26"],
      [[("ID", some "7"), ("Nama", some "Ali"), ("Nominal", some "50,000"),
        ("JAN'26", some "0")]]⟩ 0
    (by decide) (by decide) (by decide) (by decide) (by decide)).1).1,
   ((C10_rename_fail_stays_paused [⟨"7", "desa"⟩]
    [("desa", DiskFile.good ⟨["Judul"], ["ID", "Nama", "Nominal", "JAN'26"],
      [[("ID", some "7"), ("Nama", some "Ali"), ("Nominal", some "50,000"),
        ("JAN'26", some "0")]]⟩)]
    false "7" "JAN'26" "20000" true ⟨"7", "desa"⟩
    ⟨["Judul"], ["ID", "Nama", "Nominal", "JAN'26"],
      [[("ID", some "7"), ("Nama", some "Ali"), ("Nominal", some "50,000"),
        ("JAN'26", some "0")]]⟩ 0
    (by decide) (by decide) (by decide) (by decide) (by decide)).1).2.1⟩

/-- Claim C5 refuted on the code: the paused flag is checked in one critical
section of on_modified, but the timer is scheduled in a second critical
section of schedule_reload; in the interleaving where pause() runs between
the two, pause has fully taken effect (paused set, no pending timer), no
resume ever runs, and yet the schedule step still installs a timer whose
firing invokes the reload callback while the watcher is paused. -/
theorem C5_pause_race_trace :
    (wrun ⟨false, false, 0, 0, false⟩ [WAct.evCheck, WAct.pause]).paused = true ∧
    (wrun ⟨false, false, 0, 0, false⟩ [WAct.evCheck, WAct.pause]).timerPending
      = false ∧
    (wrun ⟨false, false, 0, 0, false⟩
      [WAct.evCheck, WAct.pause, WAct.evSchedule, WAct.timerFire]).fires = 1 ∧
    (wrun ⟨false, false, 0, 0, false⟩
      [WAct.evCheck, WAct.pause, WAct.evSchedule, WAct.timerFire]).firedWhilePaused
      = true := by
  exact ⟨rfl, rfl, rfl, rfl⟩

theorem load_billing_data_skip (pre post : List (String × Option BTable))
    (v : String) :
    load_billing_data (some (pre ++ [(v, none)] ++ post)) =
      load_billing_data (some (pre ++ post)) := by
  show (pre ++ [(v, none)] ++ post).foldl _ [] = (pre ++ post).foldl _ []
  rw [List.foldl_append, List.foldl_append, List.foldl_append]
  rfl

/-- Claim C6: a reload whose master parse fails returns false and keeps the
previous snapshot byte for byte; with a parsed master the reload always
returns true, an unparsable billing file behaving exactly as if it were
absent from the directory; and on success the installed snapshot is entirely
determined by the freshly parsed data — it does not depend on the previous
snapshot, so no execution leaves a partially updated mixture. -/
theorem C6_reload_atomic (st : StoreState)
    (billing : Option (List (String × Option BTable))) :
    reload st none billing = (st, false) ∧
    (∀ mt : MasterTable, (reload st (some mt) billing).2 = true) ∧
    (∀ (mt : MasterTable) (pre post : List (String × Option BTable)) (v : String),
      reload st (some mt) (some (pre ++ [(v, none)] ++ post)) =
        reload st (some mt) (some (pre ++ post))) ∧
    (∀ (mt : MasterTable) (st2 : StoreState),
      reload st (some mt) billing = reload st2 (some mt) billing) := by
  refine ⟨rfl, ?_, ?_, ?_⟩
  · intro mt
    show (reload st (some mt) billing).2 = true
    unfold reload
    by_cases h : (combined_billing ((load_billing_data billing).map
        (fun vb => (vb.1, vb.2.rows)))).isEmpty = true
    · simp only [h, if_true]
    · simp only [h, Bool.false_eq_true, if_false]
  · intro mt pre post v
    unfold reload
    rw [load_billing_data_skip]
  · intro mt st2
    rfl

/-- Witness for C6: with a concrete master table, a billing directory holding
one unparsable file gives the same snapshot and result as the directory
without it. -/
theorem C6_reload_atomic_witness :
    reload ⟨[], [], []⟩ (some ⟨["ID", "Nama"], [⟨"7", "Ali"⟩]⟩)
        (some ([] ++ [("bad", none)] ++
          [("desa", some ⟨["ID", "Nama", "Nominal", "JAN'26"],
            [⟨"7", [("JAN'26", some "10")]⟩]⟩)])) =
      reload ⟨[], [], []⟩ (some ⟨["ID", "Nama"], [⟨"7", "Ali"⟩]⟩)
        (some ([] ++
          [("desa", some ⟨["ID", "Nama", "Nominal", "JAN'26"],
            [⟨"7", [("JAN'26", some "10")]⟩]⟩)])) :=
  (C6_reload_atomic ⟨[], [], []⟩
    (some ([] ++ [("bad", none)] ++
      [("desa", some ⟨["ID", "Nama", "Nominal", "JAN'26"],
        [⟨"7", [("JAN'26", some "10")]⟩]⟩)]))).2.2.1
    ⟨["ID", "Nama"], [⟨"7", "Ali"⟩]⟩ []
    [("desa", some ⟨["ID", "Nama", "Nominal", "JAN'26"],
      [⟨"7", [("JAN'26", some "10")]⟩]⟩)] "bad"

/-- Claim C8 (amended): search lowercases and strips the term; an empty or
whitespace-only term returns no result; when at least one record name has the
term as a case-insensitive substring the result is exactly those substring
matches; otherwise the result is exactly the records whose lowercased name is
among the at most 5 candidate names chosen by the approximate matcher
(difflib, cutoff 0.4) from the normalized name list — every such record is
returned, so the result can exceed 5 records when several records share a
candidate name. -/
theorem C8_search_semantics (records : List Record)
    (close_matches : String → List String → List String) (name : String)
    (hlen : ∀ t ns, (close_matches t ns).length ≤ 5) :
    (normalize_name name = "" → search_by_name records close_matches name = []) ∧
    (normalize_name name ≠ "" →
      (∃ r ∈ records, str_contains (str_lower r.nama) (normalize_name name) = true) →
      search_by_name records close_matches name =
        records.filter (fun r =>
          str_contains (str_lower r.nama) (normalize_name name))) ∧
    ((∀ r ∈ records, str_contains (str_lower r.nama) (normalize_name name) = false) →
      normalize_name name ≠ "" →
      search_by_name records close_matches name =
        records.filter (fun r =>
          (close_matches (normalize_name name)
            (records.map (fun r => normalize_name r.nama))).contains
              (str_lower r.nama)) ∧
      (close_matches (normalize_name name)
        (records.map (fun r => normalize_name r.nama))).length ≤ 5) := by
  refine ⟨?_, ?_, ?_⟩
  · intro h
    by_cases he : records.isEmpty = true <;> simp [search_by_name, h, he]
  · intro hne hex
    obtain ⟨r, hr, hsub⟩ := hex
    have hre : records.isEmpty = false := by
      cases records with
      | nil => simp at hr
      | cons a l => rfl
    have hbne : ((normalize_name name) == "") = false := by simpa using hne
    have hmem : r ∈ records.filter (fun r =>
        str_contains (str_lower r.nama) (normalize_name name)) :=
      List.mem_filter.mpr ⟨hr, hsub⟩
    have hlen0 : ((records.filter (fun r =>
        str_contains (str_lower r.nama) (normalize_name name))).length == 0)
        = false := by
      simp only [beq_eq_false_iff_ne]
      intro h0
      rw [List.length_eq_zero] at h0
      rw [h0] at hmem
      simp at hmem
    simp [search_by_name, hre, hbne, hlen0]
  · intro hall hne
    refine ⟨?_, hlen _ _⟩
    by_cases hre : records.isEmpty = true
    · have hrnil : records = [] := List.isEmpty_iff.mp hre
      subst hrnil
      simp [search_by_name]
    · have hbne : ((normalize_name name) == "") = false := by simpa using hne
      have hnil : records.filter (fun r =>
          str_contains (str_lower r.nama) (normalize_name name)) = [] :=
        List.filter_eq_nil_iff.mpr (by
          intro a ha
          simp [hall a ha])
      by_cases hc : (close_matches (normalize_name name)
          (records.map (fun r => normalize_name r.nama))).isEmpty = true
      · have hcnil : close_matches (normalize_name name)
            (records.map (fun r => normalize_name r.nama)) = [] :=
          List.isEmpty_iff.mp hc
        simp [search_by_name, hre, hbne, hnil, hc, hcnil]
      · simp [search_by_name, hre, hbne, hnil, hc]

/-- Witness for C8 at a concrete snapshot: with no substring match for Budy,
the fallback returns exactly (and completely) the records whose lowercased
name is among the candidate names — here the one record named Budi. -/
theorem C8_search_semantics_witness :
    search_by_name [⟨"1", "Budi", [], none⟩]
      (fun t ns => if t == "budy" then
        (ns.filter (fun n => n == "budi")).take 5 else []) "Budy" =
      [⟨"1", "Budi", [], none⟩] :=
  (((C8_search_semantics [⟨"1", "Budi", [], none⟩]
    (fun t ns => if t == "budy" then
      (ns.filter (fun n => n == "budi")).take 5 else []) "Budy"
    (by
      intro t ns
      by_cases h : (t == "budy") = true
      · simp only [h, if_true]
        exact (List.length_take_le 5 _).trans (by omega)
      · simp [h])).2.2 (by decide) (by decide)).1).trans (by decide)

/-- Counterexample to C8 as stated: six records share the name Budi; the term
Budy has no substring match, the matcher (behaving as difflib does here,
similarity 0.75 at least 0.4) returns at most 5 candidate names, yet the
fallback returns all 6 records — more than the claimed cap of 5. -/
theorem C8_counterexample :
    ((fun (t : String) (ns : List String) => if t == "budy" then
        (ns.filter (fun n => n == "budi")).take 5 else [])
      "budy" ((([⟨"1", "Budi", [], none⟩, ⟨"2", "Budi", [], none⟩,
        ⟨"3", "Budi", [], none⟩, ⟨"4", "Budi", [], none⟩,
        ⟨"5", "Budi", [], none⟩, ⟨"6", "Budi", [], none⟩] : List Record)).map
          (fun r => normalize_name r.nama))).length ≤ 5 ∧
    (search_by_name [⟨"1", "Budi", [], none⟩, ⟨"2", "Budi", [], none⟩,
        ⟨"3", "Budi", [], none⟩, ⟨"4", "Budi", [], none⟩,
        ⟨"5", "Budi", [], none⟩, ⟨"6", "Budi", [], none⟩]
      (fun t ns => if t == "budy" then
        (ns.filter (fun n => n == "budi")).take 5 else []) "Budy").length = 6 := by
  exact ⟨by decide, by decide⟩

/-! ### Helper lemmas about month resolution -/

theorem append_right_cancel_str (s t u : String) (h : s ++ t = s ++ u) : t = u := by
  have h2 := congrArg String.data h
  rw [String.data_append, String.data_append] at h2
  exact String.ext (List.append_cancel_left h2)

theorem beq_append_false_at (a pre yr : String) (i : Nat) (x y : Char)
    (ha : a.data[i]? = some x) (hp : (pre.data ++ yr.data)[i]? = some y)
    (hxy : ¬ x = y) : (a == pre ++ yr) = false := by
  apply beq_eq_false_iff_ne.mpr
  intro h
  have h2 := congrArg (fun s : String => s.data[i]?) h
  simp only [String.data_append] at h2
  rw [ha, hp] at h2
  exact hxy (Option.some.inj h2)

theorem cand_agu_iff (yr : String) :
    (("AGU'26" : String) == ("AGU" ++ "'") ++ yr) = (yr == "26") := by
  by_cases hy : yr = "26"
  · subst hy
    decide
  · have h1 : (yr == "26") = false := by simpa using hy
    rw [h1]
    apply beq_eq_false_iff_ne.mpr
    intro h
    have h0 : ("AGU'26" : String) = ("AGU" ++ "'") ++ "26" := by decide
    rw [h0] at h
    exact hy (append_right_cancel_str _ _ _ h).symm

theorem resolve_agustus (yr : String) :
    resolve_month ["JAN'26", "FEB'26", "AGU'26"] yr "agustus" = some "AGU'26" := by
  by_cases hy : yr = "26"
  · subst hy
    decide
  · have hyb : (yr == "26") = false := by simpa using hy
    have hup1 : str_upper "JAN'26" = "JAN'26" := by decide
    have hup2 : str_upper "FEB'26" = "FEB'26" := by decide
    have hup3 : str_upper "AGU'26" = "AGU'26" := by decide
    have e1 : (("JAN'26" : String) == ("AGU" ++ "'") ++ yr) = false :=
      beq_append_false_at _ _ _ 0 'J' 'A' (by decide)
        (by rw [List.getElem?_append_left (by decide)]; decide) (by decide)
    have e2 : (("FEB'26" : String) == ("AGU" ++ "'") ++ yr) = false :=
      beq_append_false_at _ _ _ 0 'F' 'A' (by decide)
        (by rw [List.getElem?_append_left (by decide)]; decide) (by decide)
    have e4 : (("JAN'26" : String) == ("AUG" ++ "'") ++ yr) = false :=
      beq_append_false_at _ _ _ 0 'J' 'A' (by decide)
        (by rw [List.getElem?_append_left (by decide)]; decide) (by decide)
    have e5 : (("FEB'26" : String) == ("AUG" ++ "'") ++ yr) = false :=
      beq_append_false_at _ _ _ 0 'F' 'A' (by decide)
        (by rw [List.getElem?_append_left (by decide)]; decide) (by decide)
    have e6 : (("AGU'26" : String) == ("AUG" ++ "'") ++ yr) = false :=
      beq_append_false_at _ _ _ 1 'G' 'U' (by decide)
        (by rw [List.getElem?_append_left (by decide)]; decide) (by decide)
    have hs1 : (["JAN'26", "FEB'26", "AGU'26"] : List String).find?
        (fun col => str_lower col == str_lower (str_strip "agustus")) = none := by
      decide
    have hs2 : month_map.lookup (str_lower (str_strip "agustus")) = some "AGU" := by
      decide
    have hfs : (variationsOf "AGU").findSome? (fun v =>
        (["JAN'26", "FEB'26", "AGU'26"] : List String).find?
          (fun col => str_upper col == v ++ "'" ++ yr)) = none := by
      show (["AGU", "AUG"] : List String).findSome? _ = none
      simp only [List.findSome?_cons, List.findSome?_nil, List.find?_cons,
        List.find?_nil, hup1, hup2, hup3, e1, e2, e4, e5, e6, cand_agu_iff, hyb]
    simp only [resolve_month, hs1, hs2, hfs]
    decide

theorem resolve_aug (yr : String) :
    resolve_month ["JAN'26", "FEB'26", "AGU'26"] yr "aug" = some "AGU'26" := by
  by_cases hy : yr = "26"
  · subst hy
    decide
  · have hyb : (yr == "26") = false := by simpa using hy
    have hup1 : str_upper "JAN'26" = "JAN'26" := by decide
    have hup2 : str_upper "FEB'26" = "FEB'26" := by decide
    have hup3 : str_upper "AGU'26" = "AGU'26" := by decide
    have e1 : (("JAN'26" : String) == ("AGU" ++ "'") ++ yr) = false :=
      beq_append_false_at _ _ _ 0 'J' 'A' (by decide)
        (by rw [List.getElem?_append_left (by decide)]; decide) (by decide)
    have e2 : (("FEB'26" : String) == ("AGU" ++ "'") ++ yr) = false :=
      beq_append_false_at _ _ _ 0 'F' 'A' (by decide)
        (by rw [List.getElem?_append_left (by decide)]; decide) (by decide)
    have e4 : (("JAN'26" : String) == ("AUG" ++ "'") ++ yr) = false :=
      beq_append_false_at _ _ _ 0 'J' 'A' (by decide)
        (by rw [List.getElem?_append_left (by decide)]; decide) (by decide)
    have e5 : (("FEB'26" : String) == ("AUG" ++ "'") ++ yr) = false :=
      beq_append_false_at _ _ _ 0 'F' 'A' (by decide)
        (by rw [List.getElem?_append_left (by decide)]; decide) (by decide)
    have e6 : (("AGU'26" : String) == ("AUG" ++ "'") ++ yr) = false :=
      beq_append_false_at _ _ _ 1 'G' 'U' (by decide)
        (by rw [List.getElem?_append_left (by decide)]; decide) (by decide)
    have hs1 : (["JAN'26", "FEB'26", "AGU'26"] : List String).find?
        (fun col => str_lower col == str_lower (str_strip "aug")) = none := by
      decide
    have hs2 : month_map.lookup (str_lower (str_strip "aug")) = some "AUG" := by
      decide
    have hfs : (variationsOf "AUG").findSome? (fun v =>
        (["JAN'26", "FEB'26", "AGU'26"] : List String).find?
          (fun col => str_upper col == v ++ "'" ++ yr)) = none := by
      show (["AUG", "AGU"] : List String).findSome? _ = none
      simp only [List.findSome?_cons, List.findSome?_nil, List.find?_cons,
        List.find?_nil, hup1, hup2, hup3, e1, e2, e4, e5, e6, cand_agu_iff, hyb]
    simp only [resolve_month, hs1, hs2, hfs]
    decide

theorem resolve_mar (yr : String) :
    resolve_month ["JAN'26", "FEB'26", "AGU'26"] yr "mar" = none := by
  have hup1 : str_upper "JAN'26" = "JAN'26" := by decide
  have hup2 : str_upper "FEB'26" = "FEB'26" := by decide
  have hup3 : str_upper "AGU'26" = "AGU'26" := by decide
  have e1 : (("JAN'26" : String) == ("MAR" ++ "'") ++ yr) = false :=
    beq_append_false_at _ _ _ 0 'J' 'M' (by decide)
      (by rw [List.getElem?_append_left (by decide)]; decide) (by decide)
  have e2 : (("FEB'26" : String) == ("MAR" ++ "'") ++ yr) = false :=
    beq_append_false_at _ _ _ 0 'F' 'M' (by decide)
      (by rw [List.getElem?_append_left (by decide)]; decide) (by decide)
  have e3 : (("AGU'26" : String) == ("MAR" ++ "'") ++ yr) = false :=
    beq_append_false_at _ _ _ 0 'A' 'M' (by decide)
      (by rw [List.getElem?_append_left (by decide)]; decide) (by decide)
  have hs1 : (["JAN'26", "FEB'26", "AGU'26"] : List String).find?
      (fun col => str_lower col == str_lower (str_strip "mar")) = none := by
    decide
  have hs2 : month_map.lookup (str_lower (str_strip "mar")) = some "MAR" := by
    decide
  have hfs : (variationsOf "MAR").findSome? (fun v =>
      (["JAN'26", "FEB'26", "AGU'26"] : List String).find?
        (fun col => str_upper col == v ++ "'" ++ yr)) = none := by
    show (["MAR"] : List String).findSome? _ = none
    simp only [List.findSome?_cons, List.findSome?_nil, List.find?_cons,
      List.find?_nil, hup1, hup2, hup3, e1, e2, e3]
  simp only [resolve_month, hs1, hs2, hfs]
  decide

theorem resolve_fallback (available : List String) (yr input abbr : String)
    (h0 : available ≠ [])
    (h1 : available.find?
      (fun col => str_lower col == str_lower (str_strip input)) = none)
    (h2 : month_map.lookup (str_lower (str_strip input)) = some abbr)
    (h3 : (variationsOf abbr).findSome? (fun v =>
      available.find? (fun col => str_upper col == v ++ "'" ++ yr)) = none) :
    (available.filter (fun c => (variationsOf abbr).contains (month_code c)) = [] →
      resolve_month available yr input = none) ∧
    (∀ m ∈ available.filter (fun c => (variationsOf abbr).contains (month_code c)),
      ∃ c, resolve_month available yr input = some c ∧
        c ∈ available.filter (fun c => (variationsOf abbr).contains (month_code c)) ∧
        ∀ d ∈ available.filter (fun c => (variationsOf abbr).contains (month_code c)),
          str_le (year_suffix d) (year_suffix c) = true) := by
  have hie : available.isEmpty = false := by
    cases available with
    | nil => exact absurd rfl h0
    | cons a t => rfl
  have htrans : ∀ a b c : String,
      str_le (year_suffix a) (year_suffix b) = true →
      str_le (year_suffix b) (year_suffix c) = true →
      str_le (year_suffix a) (year_suffix c) = true := by
    intro a b c hab hbc
    exact char_list_le_trans _ _ _ hab hbc
  have htotal : ∀ a b : String,
      str_le (year_suffix a) (year_suffix b) = true ∨
      str_le (year_suffix b) (year_suffix a) = true := by
    intro a b
    exact char_list_le_total _ _
  constructor
  · intro hnil
    simp only [resolve_month, hie, Bool.false_eq_true, if_false, h1, h2, h3, hnil]
    rfl
  · intro m hm
    have hsorted := sort_by_pairwise
      (fun a b => str_le (year_suffix a) (year_suffix b)) htrans htotal
      (available.filter (fun c => (variationsOf abbr).contains (month_code c)))
    have hmem := (mem_sort_by (fun a b => str_le (year_suffix a) (year_suffix b))
      (available.filter (fun c => (variationsOf abbr).contains (month_code c))) m).mpr hm
    have hne2 : sort_by (fun a b => str_le (year_suffix a) (year_suffix b))
        (available.filter (fun c => (variationsOf abbr).contains (month_code c)))
        ≠ [] := by
      intro hx
      rw [hx] at hmem
      simp at hmem
    cases hlast : (sort_by (fun a b => str_le (year_suffix a) (year_suffix b))
        (available.filter (fun c =>
          (variationsOf abbr).contains (month_code c)))).getLast? with
    | none => exact absurd (List.getLast?_eq_none_iff.mp hlast) hne2
    | some c =>
      have hcmem : c ∈ sort_by (fun a b => str_le (year_suffix a) (year_suffix b))
          (available.filter (fun c => (variationsOf abbr).contains (month_code c))) := by
        obtain ⟨ys, hys⟩ := List.getLast?_eq_some_iff.mp hlast
        rw [hys]
        simp
      refine ⟨c, ?_, ?_, ?_⟩
      · simp only [resolve_month, hie, Bool.false_eq_true, if_false, h1, h2, h3, hlast]
      · exact (mem_sort_by _ _ c).mp hcmem
      · intro d hd
        exact pairwise_le_getLast
          (fun a b => str_le (year_suffix a) (year_suffix b)) htotal _ c hsorted hlast
          d ((mem_sort_by _ _ d).mpr hd)

/-- Claim C7: with month labels JAN-26, FEB-26, AGU-26 both agustus and aug
resolve to AGU-26 whatever the current calendar year is, and mar resolves to
not-found; in general, when no current-year candidate label exists, the
resolver returns a label whose code matches a spelling variant and whose
two-digit year suffix is lexically greatest among all such labels, and
returns none when no label code matches. -/
theorem C7_resolve_month (yr : String) (available : List String)
    (input abbr : String)
    (h0 : available ≠ [])
    (h1 : available.find?
      (fun col => str_lower col == str_lower (str_strip input)) = none)
    (h2 : month_map.lookup (str_lower (str_strip input)) = some abbr)
    (h3 : (variationsOf abbr).findSome? (fun v =>
      available.find? (fun col => str_upper col == v ++ "'" ++ yr)) = none) :
    (resolve_month ["JAN'26", "FEB'26", "AGU'26"] yr "agustus" = some "AGU'26" ∧
     resolve_month ["JAN'26", "FEB'26", "AGU'26"] yr "aug" = some "AGU'26" ∧
     resolve_month ["JAN'26", "FEB'26", "AGU'26"] yr "mar" = none) ∧
    (available.filter (fun c => (variationsOf abbr).contains (month_code c)) = [] →
      resolve_month available yr input = none) ∧
    (∀ m ∈ available.filter (fun c => (variationsOf abbr).contains (month_code c)),
      ∃ c, resolve_month available yr input = some c ∧
        c ∈ available.filter (fun c => (variationsOf abbr).contains (month_code c)) ∧
        ∀ d ∈ available.filter (fun c => (variationsOf abbr).contains (month_code c)),
          str_le (year_suffix d) (year_suffix c) = true) := by
  have hfb := resolve_fallback available yr input abbr h0 h1 h2 h3
  exact ⟨⟨resolve_agustus yr, resolve_aug yr, resolve_mar yr⟩, hfb.1, hfb.2⟩

/-- Witness for C7: with only older labels present, jan resolves to the most
recent January column, and agustus resolves regardless of the current year. -/
theorem C7_resolve_month_witness :
    resolve_month ["JAN'26", "FEB'26", "AGU'26"] "99" "agustus" = some "AGU'26" :=
  (C7_resolve_month "99" ["JAN'25", "JAN'26"] "jan" "JAN"
    (by decide) (by decide) (by decide) (by decide)).1.1
